import Mathlib

/-!
# Verification of the AnalisaVet hemogram extraction & classification engine

Shallow embedding of the core of `app/utils/pdf_parser.py` and
`app/routes/analysis_routes.py`: the row-mode CSV field extractor, the
text-mode regex field extractor, the species normalizer of the
reference-values route, and the (spec-modelled) reference-range resolution
and classification steps.

Python strings are modelled by Lean `String` / `List Char`; Python floats by
`ℚ` (the claims under study compare exact decimal values, where IEEE floats
and rationals agree on ordering and equality); Python dicts by
insertion-ordered association lists with first-occurrence lookup and
update-in-place insertion, exactly Python's dict semantics.
-/

set_option maxRecDepth 100000

namespace AnalisaVet

/-! ## Python string primitives (modelled on the character sets that the
patterns and data of this repository use: ASCII plus Latin-1 letters;
Python's full Unicode case tables beyond that range are out of the model) -/

/-- Character is in the inclusive `Nat` codepoint range. -/
def inRange (lo hi : Nat) (c : Char) : Bool := lo.ble c.toNat && c.toNat.ble hi

/-- Python's whitespace set as matched by `str.strip` and `\s` for `str`
patterns (ASCII whitespace, NEL, NBSP and the usual Unicode space range). -/
def pyIsSpaceB (c : Char) : Bool :=
  inRange 9 13 c || inRange 28 32 c || c.toNat == 0x85 || c.toNat == 0xa0 ||
  c.toNat == 0x1680 || inRange 0x2000 0x200a c || c.toNat == 0x2028 ||
  c.toNat == 0x2029 || c.toNat == 0x202f || c.toNat == 0x205f || c.toNat == 0x3000

def isAsciiUpperB (c : Char) : Bool := inRange 65 90 c
def isAsciiLowerB (c : Char) : Bool := inRange 97 122 c
def isDigitB (c : Char) : Bool := inRange 48 57 c

/-- `str.lower` on one character, for ASCII and Latin-1 capitals
(`À`..`Þ` except `×` map 32 codepoints up, as in Python). -/
def pyCharLower (c : Char) : Char :=
  if isAsciiUpperB c then Char.ofNat (c.toNat + 32)
  else if (inRange 0xc0 0xde c && !(c.toNat == 0xd7)) then Char.ofNat (c.toNat + 32)
  else c

/-- Python `str.lower`. -/
def pyLower (s : String) : String := ⟨s.data.map pyCharLower⟩

/-- Uppercasing for `str.title`: ASCII plus Latin-1 small letters
(`à`..`þ` except `÷`), with `ÿ → Ÿ` (U+0178). `ß` (which Python expands to
`Ss`) does not occur in this repository's data and is left unchanged. -/
def pyCharUpper (c : Char) : Char :=
  if isAsciiLowerB c then Char.ofNat (c.toNat - 32)
  else if c.toNat == 0xff then Char.ofNat 0x178
  else if (inRange 0xe0 0xfe c && !(c.toNat == 0xf7) && !(c.toNat == 0xdf)) then
    Char.ofNat (c.toNat - 32)
  else c

/-- A cased character (ASCII or Latin-1 letter), as used by `str.title`'s
word-boundary rule. -/
def isCasedB (c : Char) : Bool :=
  isAsciiUpperB c || isAsciiLowerB c ||
  (inRange 0xc0 0xff c && !(c.toNat == 0xd7) && !(c.toNat == 0xf7))

/-- `str.title` on a character list: a cased character following a non-cased
one is uppercased, every other cased character is lowercased. -/
def pyTitleL : Bool → List Char → List Char
  | _, [] => []
  | prevCased, c :: t =>
    if isCasedB c then
      (if prevCased then pyCharLower c else pyCharUpper c) :: pyTitleL true t
    else c :: pyTitleL false t

/-- Python `str.title`. -/
def pyTitle (s : String) : String := ⟨pyTitleL false s.data⟩

/-- Strip leading and trailing whitespace from a character list. -/
def stripL (l : List Char) : List Char :=
  ((l.dropWhile pyIsSpaceB).reverse.dropWhile pyIsSpaceB).reverse

/-- Python `str.strip()`. -/
def pyStrip (s : String) : String := ⟨stripL s.data⟩

/-- Python `value.replace(',', '.')` as used before `float(...)`. -/
def commaToDot (s : String) : String :=
  ⟨s.data.map (fun c => if c = ',' then '.' else c)⟩

/-! ## Python `float(...)` on decimal literals

Models `float` applied to a string: strip whitespace, optional sign,
`digits [. digits]` or `. digits`, optional exponent. Python additionally
accepts `inf`/`nan` and underscore digit separators; those forms do not
arise from this program's numeric captures and are outside the model
(they are rejected here). The result is the exact rational value. -/

/-- Decimal value of a digit list. -/
def digitsToNat (l : List Char) : Nat := l.foldl (fun a c => 10 * a + (c.toNat - 48)) 0

def pow10 (n : Nat) : ℚ := (10 : ℚ) ^ n

/-- Parse the part after `e`/`E`: optional sign then at least one digit,
scaling the mantissa. -/
def parseExp (mant : ℚ) (t : List Char) : Option ℚ :=
  let p : Bool × List Char :=
    match t with
    | '+' :: r => (false, r)
    | '-' :: r => (true, r)
    | r => (false, r)
  let ed := p.2.takeWhile isDigitB
  let rest := p.2.dropWhile isDigitB
  if ed = [] ∨ rest ≠ [] then none
  else some (if p.1 then mant / pow10 (digitsToNat ed) else mant * pow10 (digitsToNat ed))

/-- Python `float(s)` on decimal-literal strings (see section comment). -/
def pyFloat (s : String) : Option ℚ :=
  let l := stripL s.data
  let q : ℚ × List Char :=
    match l with
    | '+' :: t => (1, t)
    | '-' :: t => (-1, t)
    | t => (1, t)
  let ip := q.2.takeWhile isDigitB
  let l2 := q.2.dropWhile isDigitB
  let fr : List Char × List Char :=
    match l2 with
    | '.' :: t => (t.takeWhile isDigitB, t.dropWhile isDigitB)
    | t => ([], t)
  if ip = [] ∧ fr.1 = [] then none
  else
    let mant : ℚ := q.1 * ((digitsToNat ip : ℚ) + (digitsToNat fr.1 : ℚ) / pow10 fr.1.length)
    match fr.2 with
    | [] => some mant
    | 'e' :: t => parseExp mant t
    | 'E' :: t => parseExp mant t
    | _ => none

/-! ## Python dicts

Insertion-ordered association lists: lookup takes the first occurrence
(keys are unique by construction), assignment updates in place if the key
is present and appends otherwise — Python's dict semantics. -/

def dlookup {α : Type} : List (String × α) → String → Option α
  | [], _ => none
  | (k, v) :: t, q => if k = q then some v else dlookup t q

def dinsert {α : Type} : List (String × α) → String → α → List (String × α)
  | [], k, v => [(k, v)]
  | (k', v') :: t, k, v => if k' = k then (k, v) :: t else (k', v') :: dinsert t k v

/-- Keys of a dict, in order. -/
def dkeys {α : Type} (d : List (String × α)) : List String := d.map Prod.fst

/-! ## Extraction result

`extrair_dados_hemograma_texto` and `processar_arquivo_csv` both return a
dict with exactly the two keys `'hemograma'` and `'paciente'`; modelled as a
structure with those two fields. -/

structure Extraction where
  hemograma : List (String × ℚ)
  paciente : List (String × String)
deriving DecidableEq, Repr

/-- The fixed clinical-parameter key set `campos_hemograma`
(`pdf_parser.py` lines 71–75). -/
def campos_hemograma : List String :=
  ["hemacias", "hemoglobina", "hematocrito", "vcm", "hcm", "chcm",
   "leucocitos", "segmentados", "linfocitos", "monocitos",
   "eosinofilos", "basofilos", "plaquetas", "proteina", "reticulocitos"]

/-- The fixed patient key set `campos_paciente` (`pdf_parser.py` lines 78–80). -/
def campos_paciente : List String :=
  ["nome", "tutor", "raca", "idade", "sexo", "especie"]

/-! ## Row-mode extraction (`processar_arquivo_csv`, lines 57–120)

One CSV record from `csv.DictReader` is a list of `(key, value)` column
pairs; the loop body `for key, value in row.items(): if key and value: ...`
is `processField` below. Reading the file, sniffing the delimiter and
decoding are I/O done by collaborators; any exception raised there (or
anywhere in the `try`) is modelled by the `none` input, for which the code
returns `{'hemograma': {}, 'paciente': {}}`. -/

def processField (st : Extraction) (kv : String × String) : Extraction :=
  if kv.1 = "" ∨ kv.2 = "" then st
  else
    let key_clean := pyLower (pyStrip kv.1)
    let value_clean := pyStrip kv.2
    if key_clean ∈ campos_hemograma then
      match pyFloat (commaToDot value_clean) with
      | some x => { st with hemograma := dinsert st.hemograma key_clean x }
      | none => st
    else if key_clean ∈ campos_paciente then
      if key_clean = "sexo" then
        if pyLower value_clean ∈ (["m", "macho"] : List String) then
          { st with paciente := dinsert st.paciente key_clean "Macho" }
        else if pyLower value_clean ∈ (["f", "fêmea", "femea"] : List String) then
          { st with paciente := dinsert st.paciente key_clean "Fêmea" }
        else st
      else if key_clean = "especie" then
        if pyLower value_clean ∈ (["cão", "cao", "canino"] : List String) then
          { st with paciente := dinsert st.paciente key_clean "Cão" }
        else if pyLower value_clean ∈ (["gato", "felino"] : List String) then
          { st with paciente := dinsert st.paciente key_clean "Gato" }
        else st
      else
        { st with paciente := dinsert st.paciente key_clean (pyTitle value_clean) }
    else st

abbrev Row := List (String × String)

def processar_arquivo_csv (rows : Option (List Row)) : Extraction :=
  match rows with
  | none => ⟨[], []⟩
  | some rs => rs.foldl (fun st row => row.foldl processField st) ⟨[], []⟩

/-! ## Text-mode extraction (`extrair_dados_hemograma_texto`, lines 163–238)

The regexes of `padroes_hemograma` and `padroes_paciente` are embedded by a
backtracking matcher specialised to their shape. Every repetition operator
in those patterns ranges over a single character class, so a pattern is a
label part (a token list: literal characters, character classes, optional
characters, `\s*` gaps), a separator `\s*:?\s*`, and one capture group.
`re.search` semantics: start positions are tried left to right; at a given
position, choice points backtrack with the usual preferences (greedy
repetitions longest first, lazy shortest first, alternatives left to
right). -/

/-- One token of a pattern's label part. -/
inductive Tok where
  | one (p : Char → Bool)
  | opt (c : Char)
  | ws

/-- Literal-character tokens for a string. -/
def lits (s : String) : List Tok := s.data.map (fun c => .one (fun x => x == c))

/-- A two-character class such as `[aá]`. -/
def cls2 (a b : Char) : Tok := .one (fun x => x == a || x == b)

/-- Greedy `\s*` with backtracking: the continuation is tried at the
position after the longest whitespace run first, then at shorter ones. -/
def wsBack {α : Type} (g : List Char → Option α) : List Char → Option α
  | [] => g []
  | c :: s => if pyIsSpaceB c then (wsBack g s) <|> g (c :: s) else g (c :: s)

/-- Greedy `:?` with backtracking: consume the colon first if present. -/
def colonBack {α : Type} (g : List Char → Option α) (s : List Char) : Option α :=
  match s with
  | ':' :: t => g t <|> g (':' :: t)
  | t => g t

/-- Match a label token list, passing the remainder to the continuation,
with backtracking over `opt`/`ws` choice points. The fuel argument makes
the recursion structural (hence kernel-computable); `matchToksK` below
supplies fuel that can never run out, since every step consumes one unit
and strictly shrinks `ts.length + s.length`. -/
def matchToksFuel {α : Type} (k : List Char → Option α) :
    Nat → List Tok → List Char → Option α
  | 0, _, _ => none
  | _ + 1, [], s => k s
  | _ + 1, .one _ :: _, [] => none
  | fuel + 1, .one p :: ts, c :: s => if p c then matchToksFuel k fuel ts s else none
  | fuel + 1, .opt _ :: ts, [] => matchToksFuel k fuel ts []
  | fuel + 1, .opt c :: ts, c' :: s =>
    if c' = c then (matchToksFuel k fuel ts s) <|> (matchToksFuel k fuel ts (c' :: s))
    else matchToksFuel k fuel ts (c' :: s)
  | fuel + 1, .ws :: ts, [] => matchToksFuel k fuel ts []
  | fuel + 1, .ws :: ts, c :: s =>
    if pyIsSpaceB c then
      (matchToksFuel k fuel (.ws :: ts) s) <|> (matchToksFuel k fuel ts (c :: s))
    else matchToksFuel k fuel ts (c :: s)

def matchToksK {α : Type} (k : List Char → Option α) (ts : List Tok) (s : List Char) :
    Option α :=
  matchToksFuel k (ts.length + s.length + 1) ts s

/-- The separator `\s*:?\s*` between label and capture, with backtracking. -/
def sepThen {α : Type} (k : List Char → Option α) (s : List Char) : Option α :=
  wsBack (colonBack (wsBack k)) s

/-- `re.search`: try a match at every start position, leftmost first. -/
def searchK {α : Type} (f : List Char → Option α) : List Char → Option α
  | [] => f []
  | c :: s => f (c :: s) <|> searchK f s

/-- The numeric class `[0-9,\.]`. -/
def numCls (c : Char) : Bool := isDigitB c || c == ',' || c == '.'

/-- The free-text class `[a-zA-ZÀ-ÿ\s]`. -/
def txtCls (c : Char) : Bool :=
  isAsciiLowerB c || isAsciiUpperB c || inRange 0xc0 0xff c || pyIsSpaceB c

/-- Capture `([0-9,\.]+)` at the end of a pattern: the greedy run, nonempty. -/
def capNum (s : List Char) : Option (List Char) :=
  let cap := s.takeWhile numCls
  if cap = [] then none else some cap

/-- The terminator `(?:\s|$|;|,|\n)` (the `\n` branch is inside `\s`). -/
def termOk (s : List Char) : Bool :=
  match s with
  | [] => true
  | c :: _ => pyIsSpaceB c || c == ';' || c == ','

/-- Lazy capture `([a-zA-ZÀ-ÿ\s]+?)` followed by the terminator: the
shortest nonempty class run after which the terminator matches. -/
def lazyCap : List Char → Option (List Char)
  | [] => none
  | c :: s =>
    if txtCls c then
      if termOk s then some [c] else (lazyCap s).map (fun l => c :: l)
    else none

/-- Match one alternation word (a list of character classes) literally,
returning the consumed characters. -/
def matchWordCap : List (Char → Bool) → List Char → Option (List Char)
  | [], _ => some []
  | _ :: _, [] => none
  | p :: ps, c :: s => if p c then (matchWordCap ps s).map (fun l => c :: l) else none

/-- Capture an alternation of words, left alternative first. -/
def capWords (ws : List (List (Char → Bool))) (s : List Char) : Option (List Char) :=
  ws.findSome? (fun w => matchWordCap w s)

/-- Match greedy `s?` at the end of a unit word such as `anos?`. -/
def optS : List Char → List Char
  | 's' :: _ => ['s']
  | _ => []

/-- One age unit word `anos?`/`meses?`/`dias?` if it matches here, else
nothing (the group is optional). -/
def idadeUnit (s : List Char) : List Char :=
  match matchWordCap ("ano".data.map (fun c => (fun x => x == c))) s with
  | some w => w ++ optS (s.drop 3)
  | none =>
    match matchWordCap ("mese".data.map (fun c => (fun x => x == c))) s with
    | some w => w ++ optS (s.drop 4)
    | none =>
      match matchWordCap ("dia".data.map (fun c => (fun x => x == c))) s with
      | some w => w ++ optS (s.drop 3)
      | none => []

/-- Capture `([0-9]+\s*(?:anos?|meses?|dias?)?)`: greedy digits, greedy
whitespace, then a unit word or nothing; nothing follows the group, so the
greedy choices never backtrack. -/
def capIdade (s : List Char) : Option (List Char) :=
  let ds := s.takeWhile isDigitB
  if ds = [] then none
  else
    let s1 := s.drop ds.length
    let ws := s1.takeWhile pyIsSpaceB
    let s2 := s1.drop ws.length
    some (ds ++ ws ++ idadeUnit s2)

/-- Shape of one patient pattern's capture part. -/
inductive CapKind where
  | txt
  | idade
  | words (ws : List (List (Char → Bool)))

def capOf : CapKind → List Char → Option (List Char)
  | .txt => lazyCap
  | .idade => capIdade
  | .words ws => capWords ws

/-- Search for `label \s*:?\s* (capture)` (one label alternative). -/
def searchPat (label : List Tok) (cap : List Char → Option (List Char))
    (s : List Char) : Option (List Char) :=
  searchK (fun t => matchToksK (sepThen cap) label t) s

/-- Search with label alternatives tried left to right at each position. -/
def searchPatAlts (labels : List (List Tok)) (cap : List Char → Option (List Char))
    (s : List Char) : Option (List Char) :=
  searchK (fun t => labels.findSome? (fun lab => matchToksK (sepThen cap) lab t)) s

/-- `padroes_hemograma` (lines 177–193): each value is the label part of the
pattern; the separator and numeric capture are shared. -/
def padroes_hemograma : List (String × List Tok) :=
  [("hemacias", lits "hem" ++ [cls2 'a' 'á'] ++ lits "cia" ++ [.opt 's']),
   ("hemoglobina", lits "hemoglobina"),
   ("hematocrito", lits "hemat" ++ [cls2 'o' 'ó'] ++ lits "crito"),
   ("vcm", lits "vcm"),
   ("hcm", lits "hcm"),
   ("chcm", lits "chcm"),
   ("leucocitos", lits "leuc" ++ [cls2 'o' 'ó'] ++ lits "cito" ++ [.opt 's']),
   ("segmentados", lits "segmentado" ++ [.opt 's']),
   ("linfocitos", lits "linf" ++ [cls2 'o' 'ó'] ++ lits "cito" ++ [.opt 's']),
   ("monocitos", lits "mon" ++ [cls2 'o' 'ó'] ++ lits "cito" ++ [.opt 's']),
   ("eosinofilos", lits "eosin" ++ [cls2 'o' 'ó'] ++ lits "filo" ++ [.opt 's']),
   ("basofilos", lits "bas" ++ [cls2 'o' 'ó'] ++ lits "filo" ++ [.opt 's']),
   ("plaquetas", lits "plaqueta" ++ [.opt 's']),
   ("proteina", lits "prote" ++ [cls2 'i' 'í'] ++ lits "na" ++ [.ws] ++ lits "total"),
   ("reticulocitos",
    lits "retic" ++ [cls2 'u' 'ú'] ++ lits "l" ++ [cls2 'o' 'ó'] ++ lits "cito" ++ [.opt 's'])]

/-- A word of a constrained alternation, as character predicates. -/
def wlit (s : String) : List (Char → Bool) := s.data.map (fun c => (fun x => x == c))

/-- `padroes_paciente` (lines 196–203): label alternatives plus the shape of
the capture group. -/
def padroes_paciente : List (String × (List (List Tok) × CapKind)) :=
  [("nome", ([lits "nome", lits "paciente"], .txt)),
   ("tutor",
    ([lits "tutor", lits "propriet" ++ [cls2 'a' 'á'] ++ lits "rio", lits "dono"], .txt)),
   ("raca", ([lits "ra" ++ [cls2 'ç' 'c'] ++ lits "a"], .txt)),
   ("idade", ([lits "idade"], .idade)),
   ("sexo",
    ([lits "sexo"],
     .words [wlit "macho", [fun x => x == 'f', fun x => x == 'ê' || x == 'e'] ++ wlit "mea",
             wlit "m", wlit "f"])),
   ("especie",
    ([lits "esp" ++ [cls2 'e' 'é'] ++ lits "cie"],
     .words [[fun x => x == 'c', fun x => x == 'ã' || x == 'a', fun x => x == 'o'],
             wlit "gato", wlit "canino", wlit "felino"]))]

/-- Store one patient field per lines 218–233: strip the capture, then either
canonicalize (`sexo`, `especie`) or title-case. -/
def storePaciente (d : List (String × String)) (campo : String) (cap : List Char) :
    List (String × String) :=
  let valor := pyStrip ⟨cap⟩
  if campo = "sexo" then
    if pyLower valor ∈ (["m", "macho"] : List String) then dinsert d campo "Macho"
    else if pyLower valor ∈ (["f", "fêmea", "femea"] : List String) then dinsert d campo "Fêmea"
    else d
  else if campo = "especie" then
    if pyLower valor ∈ (["cão", "cao", "canino"] : List String) then dinsert d campo "Cão"
    else if pyLower valor ∈ (["gato", "felino"] : List String) then dinsert d campo "Gato"
    else d
  else dinsert d campo (pyTitle valor)

/-- `extrair_dados_hemograma_texto` (lines 163–238): lower-case once, then
for each pattern take the first match; numeric captures go through
comma-to-dot and `float`, conversion failures are dropped. -/
def extrair_dados_hemograma_texto (texto : String) : Extraction :=
  let tl := (pyLower texto).data
  let hemo := padroes_hemograma.foldl (fun d cp =>
    ((searchPat cp.2 capNum tl).bind (fun cap => pyFloat (commaToDot ⟨cap⟩))).elim
      d (fun v => dinsert d cp.1 v)) []
  let pac := padroes_paciente.foldl (fun d cp =>
    match searchPatAlts cp.2.1 (capOf cp.2.2) tl with
    | some cap => storePaciente d cp.1 cap
    | none => d) []
  ⟨hemo, pac⟩

/-! ## Species normalization and the reference-values route
(`analysis_routes.py`, `get_reference_values`, lines 16–86) -/

/-- The `especies_map` dict literal (lines 29–44). The Python literal lists
`'CÃ£o'` and `'Cão'` as well; those are the same strings as
the `'CÃ£o'` and `'Cão'` keys already present, so the dict has exactly the
eleven keys below. -/
def especies_map : List (String × String) :=
  [("Cão", "Cão"), ("Cao", "Cão"), ("cao", "Cão"), ("cão", "Cão"),
   ("CÃO", "Cão"), ("CAO", "Cão"),
   ("Gato", "Gato"), ("gato", "Gato"), ("GATO", "Gato"),
   ("CÃ£o", "Cão"), ("CÃƒÂ£o", "Cão")]

/-- Lines 46–54: exact lookup, then lower-cased lookup, then the raw string
unchanged. (`if not especie_normalizada` is plain option-emptiness here
because no value of `especies_map` is falsy.) -/
def normalizarEspecie (raw : String) : String :=
  match dlookup especies_map raw with
  | some v => v
  | none =>
    match dlookup especies_map (pyLower raw) with
    | some v => v
    | none => raw

/-- A reference-range row `{min, max, unidade}`. -/
structure RefInfo where
  min : ℚ
  max : ℚ
  unidade : String
deriving DecidableEq, Repr

/-- A species' reference table, `parameter → RefInfo`. -/
abbrev RefTable := List (String × RefInfo)

/-- Outcome of the reference-values route. `ok`/`okFallback` carry the
table whose rows the route renders as `"{min}-{max} {unidade}"` strings
(the decimal rendering is presentation and is not modelled); `okFallback`
additionally carries the `note` string of line 70; `invalid` is the
400 response of lines 73–76; `missing` the 400 of lines 22–26. -/
inductive RefResult where
  | missing
  | ok (data : RefTable)
  | okFallback (data : RefTable) (note : String)
  | invalid (error : String)

/-- The `note` f-string of line 70. -/
def notaFallback (raw : String) : String :=
  "Espécie não reconhecida: \"" ++ raw ++ "\". Usando valores padrão para Cão."

/-- The `error` f-string of line 75. -/
def msgInvalida (raw : String) : String :=
  "Espécie inválida: " ++ raw ++ ". Use \"Cão\" ou \"Gato\"."

/-- Modelled from the spec: `AnalysisService` is not under `src/`; per spec
§6 the engine consumes one capability
`reference_ranges_for(species_label) -> map<key,ReferenceRange> | not_found`,
which models both `AnalysisService.obter_valores_referencia` and
`AnalysisService.get_reference_values`. `not_found` and an empty table are
both falsy in the Python `if not valores_ref:` tests and are modelled
together as the empty list. -/
abbrev RefLookup := String → RefTable

/-- `get_reference_values` (lines 16–86) over a reference-lookup capability.
A missing or empty `especie` query parameter (both falsy) is the `""` input. -/
def get_reference_values (refLookup : RefLookup) (especie_raw : String) : RefResult :=
  if especie_raw = "" then .missing
  else
    let especie_normalizada := normalizarEspecie especie_raw
    let valores_ref := refLookup especie_normalizada
    if valores_ref = [] then
      let fallback := refLookup "Cão"
      if fallback ≠ [] then .okFallback fallback (notaFallback especie_raw)
      else .invalid (msgInvalida especie_raw)
    else .ok valores_ref

/-! ## Classification (spec-modelled)

Modelled from the spec: `AnalysisService.analisar_hemograma`, which performs
the range classification, is not under `src/` (only its caller
`analysis_routes.analyze_hemogram` is). Spec §4.5: for each parameter of the
reference table that is also in the measurement map, compare the value
against `[min, max]` inclusive — below min is "baixo", above max is "alto",
otherwise "normal"; parameters absent from the measurement map are excluded
entirely. `alterado` is true iff the status is not "normal" (spec §3). -/

structure ClassEntry where
  valor : ℚ
  status : String
  referencia : RefInfo
  alterado : Bool
deriving DecidableEq, Repr

/-- Modelled from the spec: single-value range classification of spec §4.5. -/
def classificarValor (mn mx v : ℚ) : String :=
  if v < mn then "baixo" else if v > mx then "alto" else "normal"

/-- Modelled from the spec: the per-parameter classification map of spec
§4.5, keyed like the reference table, skipping parameters without a
measurement. -/
def classify (meas : List (String × ℚ)) (tbl : RefTable) : List (String × ClassEntry) :=
  tbl.filterMap (fun pr =>
    match dlookup meas pr.1 with
    | some v =>
      let st := classificarValor pr.2.min pr.2.max v
      some (pr.1, ⟨v, st, pr.2, if st = "normal" then false else true⟩)
    | none => none)

/-! ## Helper lemmas -/

theorem dlookup_dinsert {α : Type} (d : List (String × α)) (k q : String) (v : α) :
    dlookup (dinsert d k v) q = if k = q then some v else dlookup d q := by
  induction d with
  | nil => simp [dinsert, dlookup]
  | cons h t ih =>
    obtain ⟨k', v'⟩ := h
    by_cases hk : k' = k
    · subst hk
      by_cases hq : k' = q <;> simp [dinsert, dlookup, hq]
    · by_cases hq : k' = q
      · subst hq
        simp [dinsert, dlookup, hk, Ne.symm hk]
      · simp [dinsert, dlookup, hk, hq, ih]

theorem mem_dkeys_dinsert {α : Type} (d : List (String × α)) (k q : String) (v : α)
    (h : q ∈ dkeys (dinsert d k v)) : q = k ∨ q ∈ dkeys d := by
  induction d with
  | nil => simpa [dinsert, dkeys] using h
  | cons hd t ih =>
    obtain ⟨k', v'⟩ := hd
    by_cases hk : k' = k
    · subst hk
      rcases (by simpa [dinsert, dkeys] using h) with h' | h'
      · exact .inl h'
      · exact .inr (by simp [dkeys, h'])
    · rcases (by simpa [dinsert, dkeys, hk] using h) with h' | h'
      · exact .inr (by simp [dkeys, h'])
      · rcases ih (by simpa [dkeys] using h') with h'' | h''
        · exact .inl h''
        · exact .inr (by simp [dkeys]; right; simpa [dkeys] using h'')

/-- A property preserved by every fold step holds of the fold. -/
theorem foldl_preserve {σ β : Type} (P : σ → Prop) (f : σ → β → σ)
    (h : ∀ st b, P st → P (f st b)) : ∀ (l : List β) (st : σ), P st → P (l.foldl f st) := by
  intro l
  induction l with
  | nil => intro st hst; exact hst
  | cons b t ih => intro st hst; exact ih _ (h st b hst)

/-- `re.search` tries start positions left to right: it is the first
success over the suffixes of the text in decreasing-length order. -/
theorem searchK_eq_findSome_tails {α : Type} (f : List Char → Option α) (s : List Char) :
    searchK f s = s.tails.findSome? f := by
  induction s with
  | nil =>
    show f [] = _
    simp [List.findSome?]
    cases f [] <;> simp
  | cons c t ih =>
    rw [List.tails_cons, List.findSome?_cons]
    cases h : f (c :: t) with
    | none => simp [searchK, h, ih]
    | some r => simp [searchK, h]

/-- Folding pattern-driven inserts never touches a key outside the
pattern list. -/
theorem foldl_insert_dlookup_notmem {α V : Type} (g : α → Option V) :
    ∀ (l : List (String × α)) (d : List (String × V)) (k : String),
      k ∉ l.map Prod.fst →
      dlookup (l.foldl (fun d p => (g p.2).elim d (fun v => dinsert d p.1 v)) d) k
        = dlookup d k := by
  intro l
  induction l with
  | nil => intro d k _; rfl
  | cons hd t ih =>
    intro d k hk
    have hk1 : hd.1 ≠ k := fun hc => hk (by simp [hc.symm])
    have hk2 : k ∉ t.map Prod.fst := fun hc => hk (by simp [hc])
    cases hg : g hd.2 with
    | none => simp only [List.foldl_cons, hg, Option.elim_none, Option.elim_some]; exact ih d k hk2
    | some v =>
      simp only [List.foldl_cons, hg, Option.elim_none, Option.elim_some]
      rw [ih (dinsert d hd.1 v) k hk2, dlookup_dinsert, if_neg hk1]

/-- Folding pattern-driven inserts over a key-distinct pattern list: the
entry of a key is decided by its own pattern alone. -/
theorem foldl_insert_dlookup {α V : Type} (g : α → Option V) :
    ∀ (l : List (String × α)) (d : List (String × V)) (k : String) (a : α),
      (k, a) ∈ l → (l.map Prod.fst).Nodup →
      dlookup (l.foldl (fun d p => (g p.2).elim d (fun v => dinsert d p.1 v)) d) k
        = (g a).elim (dlookup d k) some := by
  intro l
  induction l with
  | nil => intro d k a hm; simp at hm
  | cons hd t ih =>
    intro d k a hm hnd
    obtain ⟨k', a'⟩ := hd
    have hnd' : (t.map Prod.fst).Nodup := (List.nodup_cons.mp (by simpa using hnd)).2
    have hk'nm : k' ∉ t.map Prod.fst := (List.nodup_cons.mp (by simpa using hnd)).1
    rcases List.mem_cons.mp hm with he | ht
    · rw [Prod.ext_iff] at he
      obtain ⟨hk, ha⟩ := he
      simp only at hk ha
      subst hk; subst ha
      cases hg : g a with
      | none =>
        simp only [List.foldl_cons, hg, Option.elim_none, Option.elim_some]
        exact foldl_insert_dlookup_notmem g t d k hk'nm
      | some v =>
        simp only [List.foldl_cons, hg, Option.elim_none, Option.elim_some]
        rw [foldl_insert_dlookup_notmem g t (dinsert d k v) k hk'nm,
          dlookup_dinsert, if_pos rfl]
    · have hk : k' ≠ k := by
        intro hc
        subst hc
        exact hk'nm (List.mem_map_of_mem Prod.fst ht)
      cases hg : g a' with
      | none => simp only [List.foldl_cons, hg, Option.elim_none, Option.elim_some]; exact ih d k a ht hnd'
      | some v =>
        simp only [List.foldl_cons, hg, Option.elim_none, Option.elim_some]
        rw [ih (dinsert d k' v) k a ht hnd']
        cases g a <;> simp [dlookup_dinsert, hk]

/-- A property preserved by every fold step over elements of the list. -/
theorem foldl_preserve_mem {σ β : Type} (P : σ → Prop) (f : σ → β → σ) :
    ∀ (l : List β), (∀ st b, b ∈ l → P st → P (f st b)) →
      ∀ (st : σ), P st → P (l.foldl f st) := by
  intro l
  induction l with
  | nil => intro _ st hst; exact hst
  | cons b t ih =>
    intro h st hst
    exact ih (fun st' b' hb' => h st' b' (List.mem_cons_of_mem b hb'))
      (f st b) (h st b (List.mem_cons_self b t) hst)

/-- Everything `processField` can do: leave the state alone, write one
clinical value under a clinical key, or write one patient value under a
patient key — with `sexo`/`especie` only ever receiving canonical labels. -/
theorem processField_cases (st : Extraction) (kv : String × String) :
    processField st kv = st ∨
    (∃ k x, k ∈ campos_hemograma ∧
      processField st kv = { st with hemograma := dinsert st.hemograma k x }) ∨
    (∃ k v, k ∈ campos_paciente ∧
      (k = "sexo" → v = "Macho" ∨ v = "Fêmea") ∧
      (k = "especie" → v = "Cão" ∨ v = "Gato") ∧
      processField st kv = { st with paciente := dinsert st.paciente k v }) := by
  simp only [processField]
  split
  · exact .inl rfl
  · split
    · -- clinical key
      split
      · next x _ => exact .inr (.inl ⟨_, x, ‹_›, rfl⟩)
      · exact .inl rfl
    · split
      · -- patient key
        split
        · -- key_clean = "sexo"
          next hsx =>
          split
          · exact .inr (.inr ⟨pyLower (pyStrip kv.1), "Macho", ‹_›, fun _ => .inl rfl,
              fun hc => absurd (hsx.symm.trans hc) (by decide), rfl⟩)
          · split
            · exact .inr (.inr ⟨pyLower (pyStrip kv.1), "Fêmea", ‹_›, fun _ => .inr rfl,
                fun hc => absurd (hsx.symm.trans hc) (by decide), rfl⟩)
            · exact .inl rfl
        · -- not "sexo"
          next hnsx =>
          split
          · -- key_clean = "especie"
            next hsp =>
            split
            · exact .inr (.inr ⟨pyLower (pyStrip kv.1), "Cão", ‹_›,
                fun hc => absurd (hc.symm.trans hsp) (by decide), fun _ => .inl rfl, rfl⟩)
            · split
              · exact .inr (.inr ⟨pyLower (pyStrip kv.1), "Gato", ‹_›,
                  fun hc => absurd (hc.symm.trans hsp) (by decide), fun _ => .inr rfl, rfl⟩)
              · exact .inl rfl
          · -- free-text patient field
            next hnsp =>
            exact .inr (.inr ⟨_, _, ‹_›, fun hc => absurd hc hnsx,
              fun hc => absurd hc hnsp, rfl⟩)
      · exact .inl rfl

/-- Everything `storePaciente` can do. -/
theorem storePaciente_cases (d : List (String × String)) (campo : String) (cap : List Char) :
    storePaciente d campo cap = d ∨
    (∃ v, (campo = "sexo" → v = "Macho" ∨ v = "Fêmea") ∧
      (campo = "especie" → v = "Cão" ∨ v = "Gato") ∧
      storePaciente d campo cap = dinsert d campo v) := by
  simp only [storePaciente]
  split
  · next hsx =>
    split
    · exact .inr ⟨"Macho", fun _ => .inl rfl,
        fun hc => absurd (hsx ▸ hc) (by decide), rfl⟩
    · split
      · exact .inr ⟨"Fêmea", fun _ => .inr rfl,
          fun hc => absurd (hsx ▸ hc) (by decide), rfl⟩
      · exact .inl rfl
  · next hnsx =>
    split
    · next hsp =>
      split
      · exact .inr ⟨"Cão", fun hc => absurd (hsp ▸ hc) (by decide),
          fun _ => .inl rfl, rfl⟩
      · split
        · exact .inr ⟨"Gato", fun hc => absurd (hsp ▸ hc) (by decide),
            fun _ => .inr rfl, rfl⟩
        · exact .inl rfl
    · next hnsp =>
      exact .inr ⟨_, fun hc => absurd hc hnsx, fun hc => absurd hc hnsp, rfl⟩

/-- The two output dicts of text-mode extraction, as their folds. -/
theorem extrair_hemograma_eq (texto : String) :
    (extrair_dados_hemograma_texto texto).hemograma =
      padroes_hemograma.foldl (fun d cp =>
        ((searchPat cp.2 capNum (pyLower texto).data).bind
            (fun cap => pyFloat (commaToDot ⟨cap⟩))).elim
          d (fun v => dinsert d cp.1 v)) [] := rfl

theorem extrair_paciente_eq (texto : String) :
    (extrair_dados_hemograma_texto texto).paciente =
      padroes_paciente.foldl (fun d cp =>
        match searchPatAlts cp.2.1 (capOf cp.2.2) (pyLower texto).data with
        | some cap => storePaciente d cp.1 cap
        | none => d) [] := rfl

/-- Canonicity of the `sexo` and `especie` entries of a patient dict. -/
abbrev PacProp (d : List (String × String)) : Prop :=
  (∀ v, dlookup d "sexo" = some v → v = "Macho" ∨ v = "Fêmea") ∧
  (∀ v, dlookup d "especie" = some v → v = "Cão" ∨ v = "Gato")

theorem PacProp_dinsert (d : List (String × String)) (k v : String)
    (hs : k = "sexo" → v = "Macho" ∨ v = "Fêmea")
    (he : k = "especie" → v = "Cão" ∨ v = "Gato")
    (h : PacProp d) : PacProp (dinsert d k v) := by
  constructor <;> intro w hw <;> rw [dlookup_dinsert] at hw
  · by_cases hk : k = "sexo"
    · rw [if_pos hk] at hw
      cases hw
      exact hs hk
    · rw [if_neg hk] at hw
      exact h.1 w hw
  · by_cases hk : k = "especie"
    · rw [if_pos hk] at hw
      cases hw
      exact he hk
    · rw [if_neg hk] at hw
      exact h.2 w hw

theorem PacProp_processField (st : Extraction) (kv : String × String)
    (h : PacProp st.paciente) : PacProp (processField st kv).paciente := by
  rcases processField_cases st kv with hc | ⟨k, x, _, hc⟩ | ⟨k, v, _, hs, he, hc⟩
  · rw [hc]; exact h
  · rw [hc]; exact h
  · rw [hc]; exact PacProp_dinsert _ k v hs he h

theorem PacProp_storePaciente (d : List (String × String)) (campo : String)
    (cap : List Char) (h : PacProp d) : PacProp (storePaciente d campo cap) := by
  rcases storePaciente_cases d campo cap with hc | ⟨v, hs, he, hc⟩
  · rw [hc]; exact h
  · rw [hc]; exact PacProp_dinsert _ campo v hs he h

theorem PacProp_csv (rows : Option (List Row)) :
    PacProp (processar_arquivo_csv rows).paciente := by
  cases rows with
  | none => exact ⟨nofun, nofun⟩
  | some rs =>
    refine foldl_preserve_mem (fun st => PacProp st.paciente)
      (fun st row => row.foldl processField st) rs (fun st row _ hst => ?_)
      ⟨[], []⟩ ⟨nofun, nofun⟩
    exact foldl_preserve_mem (fun st' => PacProp st'.paciente) processField row
      (fun st' kv _ hst' => PacProp_processField st' kv hst') st hst

theorem PacProp_texto (texto : String) :
    PacProp (extrair_dados_hemograma_texto texto).paciente := by
  rw [extrair_paciente_eq]
  refine foldl_preserve_mem PacProp _ padroes_paciente (fun d cp _ hd => ?_) []
    ⟨nofun, nofun⟩
  cases searchPatAlts cp.2.1 (capOf cp.2.2) (pyLower texto).data with
  | none => exact hd
  | some cap =>
    dsimp only
    exact PacProp_storePaciente d cp.1 cap hd

/-- Keys of both output dicts stay inside their fixed key sets. -/
abbrev KeysProp (st : Extraction) : Prop :=
  (∀ x ∈ dkeys st.hemograma, x ∈ campos_hemograma) ∧
  (∀ x ∈ dkeys st.paciente, x ∈ campos_paciente)

theorem KeysProp_processField (st : Extraction) (kv : String × String)
    (h : KeysProp st) : KeysProp (processField st kv) := by
  rcases processField_cases st kv with hc | ⟨k, x, hk, hc⟩ | ⟨k, v, hk, _, _, hc⟩
  · rw [hc]; exact h
  · rw [hc]
    refine ⟨fun y hy => ?_, h.2⟩
    rcases mem_dkeys_dinsert _ _ _ _ hy with rfl | hy'
    · exact hk
    · exact h.1 y hy'
  · rw [hc]
    refine ⟨h.1, fun y hy => ?_⟩
    rcases mem_dkeys_dinsert _ _ _ _ hy with rfl | hy'
    · exact hk
    · exact h.2 y hy'

theorem KeysProp_csv (rows : Option (List Row)) :
    KeysProp (processar_arquivo_csv rows) := by
  cases rows with
  | none => exact ⟨nofun, nofun⟩
  | some rs =>
    refine foldl_preserve_mem KeysProp (fun st row => row.foldl processField st) rs
      (fun st row _ hst => ?_) ⟨[], []⟩ ⟨nofun, nofun⟩
    exact foldl_preserve_mem KeysProp processField row
      (fun st' kv _ hst' => KeysProp_processField st' kv hst') st hst

theorem map_fst_padroes_hemograma :
    padroes_hemograma.map Prod.fst = campos_hemograma := rfl

theorem map_fst_padroes_paciente :
    padroes_paciente.map Prod.fst = campos_paciente := rfl

theorem KeysProp_texto (texto : String) :
    KeysProp (extrair_dados_hemograma_texto texto) := by
  constructor
  · rw [extrair_hemograma_eq]
    refine foldl_preserve_mem (fun d => ∀ x ∈ dkeys d, x ∈ campos_hemograma) _
      padroes_hemograma (fun d cp hcp hd => ?_) [] nofun
    cases (searchPat cp.2 capNum (pyLower texto).data).bind
        (fun cap => pyFloat (commaToDot ⟨cap⟩)) with
    | none => exact hd
    | some v =>
      simp only [Option.elim_some]
      intro y hy
      rcases mem_dkeys_dinsert _ _ _ _ hy with rfl | hy'
      · exact map_fst_padroes_hemograma ▸ List.mem_map_of_mem Prod.fst hcp
      · exact hd y hy'
  · rw [extrair_paciente_eq]
    refine foldl_preserve_mem (fun d => ∀ x ∈ dkeys d, x ∈ campos_paciente) _
      padroes_paciente (fun d cp hcp hd => ?_) [] nofun
    cases searchPatAlts cp.2.1 (capOf cp.2.2) (pyLower texto).data with
    | none => exact hd
    | some cap =>
      dsimp only
      intro y hy
      rcases storePaciente_cases d cp.1 cap with hc | ⟨v, _, _, hc⟩
      · rw [hc] at hy; exact hd y hy
      · rw [hc] at hy
        rcases mem_dkeys_dinsert _ _ _ _ hy with rfl | hy'
        · exact map_fst_padroes_paciente ▸ List.mem_map_of_mem Prod.fst hcp
        · exact hd y hy'

/-- Entry of the classification map at a key: present exactly when the key
has both a reference row and a measurement, carrying the inclusive-bounds
status. -/
theorem dlookup_classify (meas : List (String × ℚ)) :
    ∀ (tbl : RefTable) (p : String),
      dlookup (classify meas tbl) p =
        match dlookup tbl p, dlookup meas p with
        | some r, some v =>
          some ⟨v, classificarValor r.min r.max v, r,
            if classificarValor r.min r.max v = "normal" then false else true⟩
        | _, _ => none := by
  intro tbl
  induction tbl with
  | nil => intro p; simp [classify, dlookup]
  | cons hd t ih =>
    intro p
    obtain ⟨q, r⟩ := hd
    by_cases hq : q = p
    · subst hq
      cases hm : dlookup meas q with
      | some v =>
        simp [classify, List.filterMap_cons, hm, dlookup]
      | none =>
        have h2 := ih q
        rw [hm] at h2
        simp only [classify, List.filterMap_cons, hm] at h2 ⊢
        rw [h2]
        simp only [dlookup, if_pos rfl]
        cases dlookup t q <;> rfl
    · cases hm : dlookup meas q with
      | some v =>
        simp only [classify, List.filterMap_cons, hm] at ih ⊢
        simp only [dlookup, if_neg hq]
        exact ih p
      | none =>
        simp only [classify, List.filterMap_cons, hm] at ih ⊢
        simp only [dlookup, if_neg hq]
        exact ih p

/-- A character list strips to nothing exactly when it is all whitespace. -/
theorem stripL_eq_nil_iff (l : List Char) :
    stripL l = [] ↔ ∀ c ∈ l, pyIsSpaceB c := by
  unfold stripL
  rw [List.reverse_eq_nil_iff, List.dropWhile_eq_nil_iff]
  constructor
  · intro h c hc
    rw [← List.takeWhile_append_dropWhile (p := pyIsSpaceB) (l := l)] at hc
    rcases List.mem_append.mp hc with h1 | h2
    · exact List.mem_takeWhile_imp h1
    · exact h c (List.mem_reverse.mpr h2)
  · intro h c hc
    exact h c ((List.dropWhile_sublist (p := pyIsSpaceB) (l := l)).subset
      (List.mem_reverse.mp hc))

/-- `float` rejects a value that strips to nothing, also after the
comma-to-dot substitution. -/
theorem pyFloat_of_strip_empty (s : String) (h : pyStrip s = "") :
    pyFloat (commaToDot s) = none := by
  have hl : stripL s.data = [] := congrArg String.data h
  have hall : ∀ c ∈ s.data, pyIsSpaceB c := (stripL_eq_nil_iff _).mp hl
  have hcd : stripL (commaToDot s).data = [] := by
    rw [stripL_eq_nil_iff]
    intro c hc
    rcases List.mem_map.mp hc with ⟨c0, hc0, hfc⟩
    have hws := hall c0 hc0
    have : c0 ≠ ',' := by
      intro hcomma
      rw [hcomma] at hws
      exact absurd hws (by decide)
    rw [← hfc, if_neg this]
    exact hws
  simp only [pyFloat, hcd]
  rfl

/-! Evaluation lemmas for a few concrete `float(...)` calls (the symbolic
normal form is reached by `rfl`; the rational arithmetic by `norm_num`). -/

theorem pyFloat_ex10 : pyFloat "10" = some 10 := by
  have h : pyFloat "10" =
      some ((1 : ℚ) * ((digitsToNat ['1', '0'] : ℚ) +
        (digitsToNat ([] : List Char) : ℚ) / pow10 0)) := rfl
  have h1 : digitsToNat ['1', '0'] = 10 := rfl
  have h2 : digitsToNat ([] : List Char) = 0 := rfl
  rw [h, h1, h2]
  norm_num [pow10]

theorem pyFloat_ex20 : pyFloat "20" = some 20 := by
  have h : pyFloat "20" =
      some ((1 : ℚ) * ((digitsToNat ['2', '0'] : ℚ) +
        (digitsToNat ([] : List Char) : ℚ) / pow10 0)) := rfl
  have h1 : digitsToNat ['2', '0'] = 20 := rfl
  have h2 : digitsToNat ([] : List Char) = 0 := rfl
  rw [h, h1, h2]
  norm_num [pow10]

theorem pyFloat_ex70 : pyFloat "70" = some 70 := by
  have h : pyFloat "70" =
      some ((1 : ℚ) * ((digitsToNat ['7', '0'] : ℚ) +
        (digitsToNat ([] : List Char) : ℚ) / pow10 0)) := rfl
  have h1 : digitsToNat ['7', '0'] = 70 := rfl
  have h2 : digitsToNat ([] : List Char) = 0 := rfl
  rw [h, h1, h2]
  norm_num [pow10]

/-- Every value appearing in the text-mode measurement map is the result of
a successful `float` conversion of some capture. -/
theorem texto_hemograma_provenance (texto : String) :
    ∀ campo v, dlookup (extrair_dados_hemograma_texto texto).hemograma campo = some v →
      ∃ cap, pyFloat (commaToDot ⟨cap⟩) = some v := by
  rw [extrair_hemograma_eq]
  refine foldl_preserve_mem
    (fun d => ∀ campo v, dlookup d campo = some v → ∃ cap, pyFloat (commaToDot ⟨cap⟩) = some v)
    _ padroes_hemograma (fun d cp _ hd => ?_) [] nofun
  cases hb : (searchPat cp.2 capNum (pyLower texto).data).bind
      (fun cap => pyFloat (commaToDot ⟨cap⟩)) with
  | none => exact hd
  | some v =>
    simp only [Option.elim_some]
    intro campo w hw
    rw [dlookup_dinsert] at hw
    rcases Option.bind_eq_some.mp hb with ⟨cap, _, hf⟩
    by_cases hk : cp.1 = campo
    · rw [if_pos hk] at hw
      cases hw
      exact ⟨cap, hf⟩
    · rw [if_neg hk] at hw
      exact hd campo w hw

/-! ## Claims -/

/-- C4: species normalization is total on the supported spellings — the six
`Cão` variants, the three `Gato` variants and the two double-encoding
corruptions each map to their canonical label — and idempotent on all of
them. -/
theorem claim_C4 :
    normalizarEspecie "Cão" = "Cão" ∧ normalizarEspecie "Cao" = "Cão" ∧
    normalizarEspecie "cao" = "Cão" ∧ normalizarEspecie "cão" = "Cão" ∧
    normalizarEspecie "CÃO" = "Cão" ∧ normalizarEspecie "CAO" = "Cão" ∧
    normalizarEspecie "Gato" = "Gato" ∧ normalizarEspecie "gato" = "Gato" ∧
    normalizarEspecie "GATO" = "Gato" ∧
    normalizarEspecie "CÃ£o" = "Cão" ∧ normalizarEspecie "CÃƒÂ£o" = "Cão" ∧
    normalizarEspecie (normalizarEspecie "Cão") = normalizarEspecie "Cão" ∧
    normalizarEspecie (normalizarEspecie "Cao") = normalizarEspecie "Cao" ∧
    normalizarEspecie (normalizarEspecie "cao") = normalizarEspecie "cao" ∧
    normalizarEspecie (normalizarEspecie "cão") = normalizarEspecie "cão" ∧
    normalizarEspecie (normalizarEspecie "CÃO") = normalizarEspecie "CÃO" ∧
    normalizarEspecie (normalizarEspecie "CAO") = normalizarEspecie "CAO" ∧
    normalizarEspecie (normalizarEspecie "Gato") = normalizarEspecie "Gato" ∧
    normalizarEspecie (normalizarEspecie "gato") = normalizarEspecie "gato" ∧
    normalizarEspecie (normalizarEspecie "GATO") = normalizarEspecie "GATO" ∧
    normalizarEspecie (normalizarEspecie "CÃ£o") = normalizarEspecie "CÃ£o" ∧
    normalizarEspecie (normalizarEspecie "CÃƒÂ£o") = normalizarEspecie "CÃƒÂ£o" := by
  decide

/-- C3: when the reference source yields nothing for the normalized species
and nothing for the default species `"Cão"` either, the route answers the
distinct `invalid` outcome (the 400 `Espécie inválida` response), and a
successful outcome (plain or fallback) never carries an empty reference
table. -/
theorem claim_C3 (refLookup : RefLookup) (raw : String) (hraw : raw ≠ "") :
    (refLookup (normalizarEspecie raw) = [] → refLookup "Cão" = [] →
      get_reference_values refLookup raw = .invalid (msgInvalida raw)) ∧
    (∀ d, get_reference_values refLookup raw = .ok d → d ≠ []) ∧
    (∀ d note, get_reference_values refLookup raw = .okFallback d note → d ≠ []) := by
  simp only [get_reference_values, if_neg hraw]
  split
  · next h1 =>
    split
    · next h2 =>
      exact ⟨fun _ hC => absurd hC h2,
        fun d h => RefResult.noConfusion h,
        fun d note h => by
          cases h
          exact h2⟩
    · next h2 =>
      exact ⟨fun _ _ => rfl,
        fun d h => RefResult.noConfusion h,
        fun d note h => RefResult.noConfusion h⟩
  · next h1 =>
    exact ⟨fun hva _ => absurd hva h1,
      fun d h => by
        cases h
        exact h1,
      fun d note h => RefResult.noConfusion h⟩

/-- C3 witness: with a reference source that has no table at all, resolving
`"Equino"` signals the `invalid` outcome; with a one-table source for
`"Cão"`, the successful outcome carries a nonempty table. -/
theorem claim_C3_witness :
    get_reference_values (fun _ => []) "Equino" = .invalid (msgInvalida "Equino") ∧
    ([("hemacias", (⟨5, 8, "milhões/µL"⟩ : RefInfo))] : RefTable) ≠ [] :=
  ⟨(claim_C3 (fun _ => []) "Equino" (by decide)).1 rfl rfl,
   (claim_C3 (fun _ => [("hemacias", ⟨5, 8, "milhões/µL"⟩)]) "Cão" (by decide)).2.1
     [("hemacias", ⟨5, 8, "milhões/µL"⟩)] rfl⟩

/-- C7: when the reference source has nothing for the (normalized) input
label but does have the default `"Cão"` table, the route returns the
fallback outcome carrying exactly the `"Cão"` table, with the note string —
the explicit fallback indication — containing the original raw label. -/
theorem claim_C7 (refLookup : RefLookup) (raw : String) (hraw : raw ≠ "")
    (h1 : refLookup (normalizarEspecie raw) = []) (h2 : refLookup "Cão" ≠ []) :
    get_reference_values refLookup raw = .okFallback (refLookup "Cão") (notaFallback raw) ∧
    raw.data <:+: (notaFallback raw).data := by
  constructor
  · simp only [get_reference_values, if_neg hraw, h1]
    rw [if_pos trivial, if_pos h2]
  · refine ⟨("Espécie não reconhecida: \"").data,
      ("\". Usando valores padrão para Cão.").data, ?_⟩
    simp [notaFallback, String.data_append, List.append_assoc]

/-- C7 witness: resolving `"Equino"` against a source that only knows
`"Cão"` yields the fallback outcome with the `"Cão"` table and a note
containing `"Equino"`. -/
theorem claim_C7_witness :
    get_reference_values
        (fun s => if s = "Cão" then [("hemacias", (⟨55, 85, "milhões/µL"⟩ : RefInfo))] else [])
        "Equino"
      = .okFallback [("hemacias", ⟨55, 85, "milhões/µL"⟩)] (notaFallback "Equino") ∧
    "Equino".data <:+: (notaFallback "Equino").data :=
  claim_C7 (fun s => if s = "Cão" then [("hemacias", ⟨55, 85, "milhões/µL"⟩)] else [])
    "Equino" (by decide) rfl (by decide)

/-- C5: classification against a reference row is by inclusive bounds — a
value strictly below the minimum is entered as "baixo" (and flagged
altered), strictly above the maximum as "alto" (altered), and anything in
the closed interval, its endpoints included, as "normal" (not altered). -/
theorem claim_C5 (meas : List (String × ℚ)) (tbl : RefTable) (p : String)
    (r : RefInfo) (v : ℚ) (hr : r.min ≤ r.max)
    (h1 : dlookup tbl p = some r) (h2 : dlookup meas p = some v) :
    (v < r.min → dlookup (classify meas tbl) p = some ⟨v, "baixo", r, true⟩) ∧
    (r.max < v → dlookup (classify meas tbl) p = some ⟨v, "alto", r, true⟩) ∧
    (r.min ≤ v → v ≤ r.max → dlookup (classify meas tbl) p = some ⟨v, "normal", r, false⟩) := by
  have hrw := dlookup_classify meas tbl p
  rw [h1, h2] at hrw
  refine ⟨fun h => ?_, fun h => ?_, fun hl hu => ?_⟩
  · rw [hrw]
    simp only [classificarValor, if_pos h]
    rw [if_neg (by decide : ¬("baixo" : String) = "normal")]
  · rw [hrw]
    simp only [classificarValor, if_neg (not_lt.mpr (hr.trans h.le)), if_pos h]
    rw [if_neg (by decide : ¬("alto" : String) = "normal")]
  · rw [hrw]
    simp only [classificarValor, if_neg (not_lt.mpr hl), if_neg (not_lt.mpr hu)]
    simp

/-- C5 witness: with the reference row `[5, 10]`, the exact boundary values
5 and 10 classify as "normal", 4.99 as "baixo" and 10.01 as "alto". -/
theorem claim_C5_witness :
    dlookup (classify [("hematocrito", (5 : ℚ))] [("hematocrito", ⟨5, 10, "%"⟩)]) "hematocrito"
      = some ⟨5, "normal", ⟨5, 10, "%"⟩, false⟩ ∧
    dlookup (classify [("hematocrito", (10 : ℚ))] [("hematocrito", ⟨5, 10, "%"⟩)]) "hematocrito"
      = some ⟨10, "normal", ⟨5, 10, "%"⟩, false⟩ ∧
    dlookup (classify [("hematocrito", (4.99 : ℚ))] [("hematocrito", ⟨5, 10, "%"⟩)]) "hematocrito"
      = some ⟨4.99, "baixo", ⟨5, 10, "%"⟩, true⟩ ∧
    dlookup (classify [("hematocrito", (10.01 : ℚ))] [("hematocrito", ⟨5, 10, "%"⟩)]) "hematocrito"
      = some ⟨10.01, "alto", ⟨5, 10, "%"⟩, true⟩ :=
  ⟨(claim_C5 [("hematocrito", (5 : ℚ))] [("hematocrito", ⟨5, 10, "%"⟩)] "hematocrito" ⟨5, 10, "%"⟩ 5 (by norm_num) rfl rfl).2.2
      (by norm_num) (by norm_num),
   (claim_C5 [("hematocrito", (10 : ℚ))] [("hematocrito", ⟨5, 10, "%"⟩)] "hematocrito" ⟨5, 10, "%"⟩ 10 (by norm_num) rfl rfl).2.2
      (by norm_num) (by norm_num),
   (claim_C5 [("hematocrito", (4.99 : ℚ))] [("hematocrito", ⟨5, 10, "%"⟩)] "hematocrito" ⟨5, 10, "%"⟩ 4.99 (by norm_num) rfl rfl).1 (by norm_num),
   (claim_C5 [("hematocrito", (10.01 : ℚ))] [("hematocrito", ⟨5, 10, "%"⟩)] "hematocrito" ⟨5, 10, "%"⟩ 10.01 (by norm_num) rfl rfl).2.1 (by norm_num)⟩

/-- C9: in both extraction modes, a `sexo` entry of the output patient map
is exactly "Macho" or "Fêmea", and an `especie` entry exactly "Cão" or
"Gato" — never a raw, non-canonical string. -/
theorem claim_C9 (rows : Option (List Row)) (texto : String) :
    (∀ v, dlookup (processar_arquivo_csv rows).paciente "sexo" = some v →
      v = "Macho" ∨ v = "Fêmea") ∧
    (∀ v, dlookup (processar_arquivo_csv rows).paciente "especie" = some v →
      v = "Cão" ∨ v = "Gato") ∧
    (∀ v, dlookup (extrair_dados_hemograma_texto texto).paciente "sexo" = some v →
      v = "Macho" ∨ v = "Fêmea") ∧
    (∀ v, dlookup (extrair_dados_hemograma_texto texto).paciente "especie" = some v →
      v = "Cão" ∨ v = "Gato") :=
  ⟨(PacProp_csv rows).1, (PacProp_csv rows).2,
   (PacProp_texto texto).1, (PacProp_texto texto).2⟩

/-- C9 witness: a row with `sexo=m`, `especie=felino` and a text with
`sexo: f`, `espécie: canino` produce only canonical labels. -/
theorem claim_C9_witness :
    (("Macho" : String) = "Macho" ∨ ("Macho" : String) = "Fêmea") ∧
    (("Gato" : String) = "Cão" ∨ ("Gato" : String) = "Gato") ∧
    (("Fêmea" : String) = "Macho" ∨ ("Fêmea" : String) = "Fêmea") ∧
    (("Cão" : String) = "Cão" ∨ ("Cão" : String) = "Gato") :=
  ⟨(claim_C9 (some [[("sexo", "m"), ("especie", "felino")]]) "").1 "Macho" rfl,
   (claim_C9 (some [[("sexo", "m"), ("especie", "felino")]]) "").2.1 "Gato" rfl,
   (claim_C9 none "sexo: f espécie: canino").2.2.1 "Fêmea" rfl,
   (claim_C9 none "sexo: f espécie: canino").2.2.2 "Cão" rfl⟩

/-- C10: both extraction modes return the fixed two-field shape whose
measurement keys all come from the fifteen clinical parameter keys and
whose patient keys all come from the six patient keys; and row mode answers
the empty shape (rather than raising) for any internal failure, delimiter
detection included. -/
theorem claim_C10 (rows : Option (List Row)) (texto : String) (k : String) :
    (k ∈ dkeys (processar_arquivo_csv rows).hemograma → k ∈ campos_hemograma) ∧
    (k ∈ dkeys (processar_arquivo_csv rows).paciente → k ∈ campos_paciente) ∧
    (k ∈ dkeys (extrair_dados_hemograma_texto texto).hemograma → k ∈ campos_hemograma) ∧
    (k ∈ dkeys (extrair_dados_hemograma_texto texto).paciente → k ∈ campos_paciente) ∧
    processar_arquivo_csv none = ⟨[], []⟩ :=
  ⟨fun h => (KeysProp_csv rows).1 k h,
   fun h => (KeysProp_csv rows).2 k h,
   fun h => (KeysProp_texto texto).1 k h,
   fun h => (KeysProp_texto texto).2 k h,
   rfl⟩

/-- C10 witness: concrete row and text inputs whose output keys land in the
fixed key sets. -/
theorem claim_C10_witness :
    ("hematocrito" : String) ∈ campos_hemograma ∧
    ("nome" : String) ∈ campos_paciente ∧
    ("vcm" : String) ∈ campos_hemograma ∧
    ("sexo" : String) ∈ campos_paciente :=
  ⟨(claim_C10 (some [[("Hematocrito", "45,2"), ("Nome", "Rex")]]) "" "hematocrito").1
     (by decide),
   (claim_C10 (some [[("Hematocrito", "45,2"), ("Nome", "Rex")]]) "" "nome").2.1
     (by decide),
   (claim_C10 none "vcm: 70 sexo: m" "vcm").2.2.1 (by decide),
   (claim_C10 none "vcm: 70 sexo: m" "sexo").2.2.2.1 (by decide)⟩

/-- C1 counterexample: two CSV records both carrying `hemoglobina`
(first 10, then 20) leave the value of the SECOND record in the output —
the claim's first-write-wins would require `some 10`. -/
theorem claim_C1_counterexample :
    dlookup (processar_arquivo_csv
        (some [[("hemoglobina", "10")], [("hemoglobina", "20")]])).hemograma "hemoglobina"
      = some 20 ∧
    ¬ dlookup (processar_arquivo_csv
        (some [[("hemoglobina", "10")], [("hemoglobina", "20")]])).hemograma "hemoglobina"
      = some 10 := by
  have h : dlookup (processar_arquivo_csv
      (some [[("hemoglobina", "10")], [("hemoglobina", "20")]])).hemograma "hemoglobina"
      = pyFloat "20" := rfl
  rw [h, pyFloat_ex20]
  refine ⟨rfl, fun hc => ?_⟩
  have := Option.some.inj hc
  norm_num at this

/-- C1 (amended): in text mode the first (leftmost) occurrence wins — the
search combinator returns the first success over the text's suffixes in
position order, and a text carrying `hemoglobina` twice keeps the first
value; in row mode, however, a later successful write for the same key
OVERWRITES the earlier one (Python dict assignment), for any prior state. -/
theorem claim_C1 :
    (∀ (f : List Char → Option (List Char)) (s : List Char),
      searchK f s = s.tails.findSome? f) ∧
    dlookup (extrair_dados_hemograma_texto
        "hemoglobina: 10 hemoglobina: 20").hemograma "hemoglobina" = some 10 ∧
    (∀ (st : Extraction) (key value : String) (x : ℚ),
      key ≠ "" → value ≠ "" →
      pyLower (pyStrip key) ∈ campos_hemograma →
      pyFloat (commaToDot (pyStrip value)) = some x →
      dlookup (processField st (key, value)).hemograma (pyLower (pyStrip key)) = some x) := by
  refine ⟨searchK_eq_findSome_tails, ?_, ?_⟩
  · have h : dlookup (extrair_dados_hemograma_texto
        "hemoglobina: 10 hemoglobina: 20").hemograma "hemoglobina" = pyFloat "10" := rfl
    rw [h, pyFloat_ex10]
  · intro st key value x hk hv hmem hf
    simp only [processField]
    rw [if_neg (by simp [hk, hv]), if_pos hmem, hf, dlookup_dinsert, if_pos rfl]

/-- C1 witness: a later row-mode write for `hemoglobina` replaces an
already-present value 5 with the new value 20. -/
theorem claim_C1_witness :
    dlookup (processField ⟨[("hemoglobina", 5)], []⟩
      ("hemoglobina", "20")).hemograma (pyLower (pyStrip "hemoglobina")) = some 20 :=
  claim_C1.2.2 ⟨[("hemoglobina", 5)], []⟩ "hemoglobina" "20" 20
    (by decide) (by decide) (by decide) pyFloat_ex20

/-- C2 counterexample: a CSV row with the unrecognized species `"Equino"`
leaves NO `especie` entry at all — the three-tier normalizer's passthrough,
which the claim extends to row-mode extraction, would require the raw
string `"Equino"` to be stored. -/
theorem claim_C2_counterexample :
    dlookup (processar_arquivo_csv (some [[("especie", "Equino")]])).paciente "especie"
      = none ∧
    ¬ dlookup (processar_arquivo_csv (some [[("especie", "Equino")]])).paciente "especie"
      = some "Equino" := by
  decide

/-- C2 (amended): the three-tier lookup (exact key, then lower-cased key,
then passthrough of the raw string) holds for the reference-route species
normalizer; row-mode extraction of the `especie` field does NOT pass
unrecognized raw strings through — a value whose lower-cased form is in
neither recognition list is dropped, leaving the state unchanged. -/
theorem claim_C2 :
    (∀ raw v, dlookup especies_map raw = some v → normalizarEspecie raw = v) ∧
    (∀ raw v, dlookup especies_map raw = none →
      dlookup especies_map (pyLower raw) = some v → normalizarEspecie raw = v) ∧
    (∀ raw, dlookup especies_map raw = none →
      dlookup especies_map (pyLower raw) = none → normalizarEspecie raw = raw) ∧
    (∀ (st : Extraction) (key value : String),
      pyLower (pyStrip key) = "especie" →
      pyLower (pyStrip value) ∉ (["cão", "cao", "canino"] : List String) →
      pyLower (pyStrip value) ∉ (["gato", "felino"] : List String) →
      processField st (key, value) = st) := by
  refine ⟨?_, ?_, ?_, ?_⟩
  · intro raw v h
    simp only [normalizarEspecie, h]
  · intro raw v h1 h2
    simp only [normalizarEspecie, h1, h2]
  · intro raw h1 h2
    simp only [normalizarEspecie, h1, h2]
  · intro st key value hkc h1 h2
    by_cases hg : key = "" ∨ value = ""
    · simp only [processField, if_pos hg]
    · simp only [processField, if_neg hg, hkc]
      rw [if_pos trivial, if_neg h1, if_neg h2]
      simp [campos_hemograma, campos_paciente]

/-- C2 witness: exact hit on `"CÃO"`, lower-cased hit on `"GAto"`,
passthrough of `"Equino"`, and the row-mode drop of `"Equino"`. -/
theorem claim_C2_witness :
    normalizarEspecie "CÃO" = "Cão" ∧
    normalizarEspecie "GAto" = "Gato" ∧
    normalizarEspecie "Equino" = "Equino" ∧
    processField ⟨[], []⟩ ("especie", "Equino") = ⟨[], []⟩ :=
  ⟨claim_C2.1 "CÃO" "Cão" rfl,
   claim_C2.2.1 "GAto" "Gato" rfl rfl,
   claim_C2.2.2.1 "Equino" rfl rfl,
   claim_C2.2.2.2 ⟨[], []⟩ "especie" "Equino" (by decide) (by decide) (by decide)⟩

/-- C6 counterexample: a row whose `nome` value is a single space passes the
`if key and value` guard and is stored as the EMPTY string after
strip-and-title — the claim requires the key to be absent. -/
theorem claim_C6_counterexample :
    dlookup (processar_arquivo_csv (some [[("nome", " ")]])).paciente "nome" = some "" ∧
    ¬ dlookup (processar_arquivo_csv (some [[("nome", " ")]])).paciente "nome" = none := by
  decide

/-- C6 (amended): an empty raw value is always skipped; a whitespace-only
raw value never yields a measurement (the stripped value fails `float`, and
text-mode measurement values only arise from successful conversions) and
never yields a `sexo`/`especie` entry; BUT a whitespace-only value of a
free-text patient field (nome, tutor, raca, idade) is stored as the empty
string, in row mode via strip-and-title and likewise in text mode. -/
theorem claim_C6 :
    (∀ (st : Extraction) (k : String), processField st (k, "") = st) ∧
    (∀ (st : Extraction) (k v : String), pyStrip v = "" →
      pyLower (pyStrip k) ∈ campos_hemograma → processField st (k, v) = st) ∧
    (∀ (st : Extraction) (k v : String), pyStrip v = "" →
      (pyLower (pyStrip k) = "sexo" ∨ pyLower (pyStrip k) = "especie") →
      processField st (k, v) = st) ∧
    (∀ (st : Extraction) (k v : String), k ≠ "" → v ≠ "" → pyStrip v = "" →
      pyLower (pyStrip k) ∈ campos_paciente →
      pyLower (pyStrip k) ≠ "sexo" → pyLower (pyStrip k) ≠ "especie" →
      processField st (k, v) =
        { st with paciente := dinsert st.paciente (pyLower (pyStrip k)) "" }) ∧
    (∀ s, pyStrip s = "" → pyFloat (commaToDot s) = none) ∧
    (∀ texto campo v,
      dlookup (extrair_dados_hemograma_texto texto).hemograma campo = some v →
      ∃ cap, pyFloat (commaToDot ⟨cap⟩) = some v) ∧
    extrair_dados_hemograma_texto "nome: " = ⟨[], [("nome", "")]⟩ := by
  refine ⟨?_, ?_, ?_, ?_, pyFloat_of_strip_empty, texto_hemograma_provenance, by decide⟩
  · intro st k
    simp only [processField]
    rw [if_pos (Or.inr trivial)]
  · intro st k v hstrip hmem
    by_cases hg : k = "" ∨ v = ""
    · simp only [processField, if_pos hg]
    · simp only [processField, if_neg hg, if_pos hmem, hstrip]
      rfl
  · intro st k v hstrip hor
    by_cases hg : k = "" ∨ v = ""
    · simp only [processField, if_pos hg]
    · rcases hor with hkc | hkc
      · simp only [processField, if_neg hg, hkc, hstrip]
        rw [if_pos trivial,
          if_neg (by decide : ¬(pyLower "" ∈ (["m", "macho"] : List String))),
          if_neg (by decide : ¬(pyLower "" ∈ (["f", "fêmea", "femea"] : List String)))]
        simp [campos_hemograma, campos_paciente]
      · simp only [processField, if_neg hg, hkc, hstrip]
        rw [if_pos trivial,
          if_neg (by decide : ¬(pyLower "" ∈ (["cão", "cao", "canino"] : List String))),
          if_neg (by decide : ¬(pyLower "" ∈ (["gato", "felino"] : List String)))]
        simp [campos_hemograma, campos_paciente]
  · intro st k v hk hv hstrip hmem hsx hsp
    have hnh : pyLower (pyStrip k) ∉ campos_hemograma := fun hc =>
      (by decide : ∀ x ∈ campos_paciente, ¬ x ∈ campos_hemograma) _ hmem hc
    have hg : ¬(k = "" ∨ v = "") := not_or.mpr ⟨hk, hv⟩
    simp only [processField, if_neg hg, if_neg hnh, if_pos hmem,
      if_neg hsx, if_neg hsp, hstrip]
    rfl

/-- C6 witness: whitespace-only values leave clinical and categorical
fields absent but store an empty `nome`. -/
theorem claim_C6_witness :
    processField ⟨[], []⟩ ("hemoglobina", " ") = ⟨[], []⟩ ∧
    processField ⟨[], []⟩ ("sexo", " ") = ⟨[], []⟩ ∧
    processField ⟨[], []⟩ ("nome", " ") = ⟨[], [("nome", "")]⟩ ∧
    processField ⟨[], []⟩ ("vcm", "") = ⟨[], []⟩ ∧
    pyFloat (commaToDot "  ") = none :=
  ⟨claim_C6.2.1 ⟨[], []⟩ "hemoglobina" " " (by decide) (by decide),
   claim_C6.2.2.1 ⟨[], []⟩ "sexo" " " (by decide) (.inl (by decide)),
   claim_C6.2.2.2.1 ⟨[], []⟩ "nome" " " (by decide) (by decide) (by decide)
     (by decide) (by decide) (by decide),
   claim_C6.1 ⟨[], []⟩ "vcm",
   claim_C6.2.2.2.2.1 "  " (by decide)⟩

/-- C8: a recognized field whose captured value fails `float` conversion is
silently absent from the text-mode measurement map while every field whose
conversion succeeds keeps its value (extraction is total — no exception);
in row mode a failed conversion leaves the state untouched and processing
continues. -/
theorem claim_C8 :
    (∀ (texto : String) (campo : String) (pat : List Tok),
      (campo, pat) ∈ padroes_hemograma →
      ∀ cap, searchPat pat capNum (pyLower texto).data = some cap →
        (pyFloat (commaToDot ⟨cap⟩) = none →
          dlookup (extrair_dados_hemograma_texto texto).hemograma campo = none) ∧
        (∀ v, pyFloat (commaToDot ⟨cap⟩) = some v →
          dlookup (extrair_dados_hemograma_texto texto).hemograma campo = some v)) ∧
    (∀ (st : Extraction) (k v : String),
      pyLower (pyStrip k) ∈ campos_hemograma →
      pyFloat (commaToDot (pyStrip v)) = none → processField st (k, v) = st) := by
  constructor
  · intro texto campo pat hmem cap hs
    have key := foldl_insert_dlookup
      (fun pat => (searchPat pat capNum (pyLower texto).data).bind
        (fun cap => pyFloat (commaToDot ⟨cap⟩)))
      padroes_hemograma [] campo pat hmem (by decide)
    constructor
    · intro hf
      rw [extrair_hemograma_eq]
      simp only [hs, Option.some_bind, hf] at key
      exact key.trans (by rfl)
    · intro v hf
      rw [extrair_hemograma_eq]
      simp only [hs, Option.some_bind, hf] at key
      exact key
  · intro st k v hmem hf
    by_cases hg : k = "" ∨ v = ""
    · simp only [processField, if_pos hg]
    · simp only [processField, if_neg hg, if_pos hmem, hf]

/-- C8 witness: in `"hemoglobina: 1.2.3 vcm: 70"` the malformed
`hemoglobina` capture is dropped while `vcm` keeps its value 70; the
row-mode analogue with `"1,2,3"` leaves the state unchanged. -/
theorem claim_C8_witness :
    dlookup (extrair_dados_hemograma_texto
      "hemoglobina: 1.2.3 vcm: 70").hemograma "hemoglobina" = none ∧
    dlookup (extrair_dados_hemograma_texto
      "hemoglobina: 1.2.3 vcm: 70").hemograma "vcm" = some 70 ∧
    processField ⟨[], []⟩ ("hemoglobina", "1,2,3") = ⟨[], []⟩ :=
  ⟨(claim_C8.1 "hemoglobina: 1.2.3 vcm: 70" "hemoglobina" (lits "hemoglobina")
      (by unfold padroes_hemograma; exact .tail _ (.head _))
      "1.2.3".data rfl).1 rfl,
   (claim_C8.1 "hemoglobina: 1.2.3 vcm: 70" "vcm" (lits "vcm")
      (by unfold padroes_hemograma; exact .tail _ (.tail _ (.tail _ (.head _))))
      "70".data rfl).2 70 pyFloat_ex70,
   claim_C8.2 ⟨[], []⟩ "hemoglobina" "1,2,3" (by decide) rfl⟩

end AnalisaVet
